import Mathlib

/-
A shallow embedding of `flayyer/use-fit-text` (`src/index.ts`).

The hook `useFitText` maintains a search state
`{ calcKey, fontSize, fontSizePrev, fontSizeMax, fontSizeMin }` and, in a
layout effect, performs a bisection search on the font size driven by an
overflow measurement of the attached container.  Numbers are embedded as
exact rationals (`ℚ`): the source operates on JS numbers, and every
operation it performs (addition, subtraction, halving, `Math.min`,
`Math.max`, comparisons) is modelled exactly.

The overflow observation (`ref.current.scrollHeight > ref.current.offsetHeight
|| ref.current.scrollWidth > ref.current.offsetWidth`, lines 128-131) is
modelled as a fixed function `ov : ℚ → Bool` of the current candidate font
size, together with a boolean `attached` for `!!ref.current`.  The log call
`console.info` (line 142) is modelled structurally as a `LogCall` carrying
the numeric severity of the console method used (`info` = 20 on the
`LOG_LEVEL` scale of lines 22-28) and the `minFontSize` value interpolated
into the message.

The hook keeps two calculating flags: the ref `isCalculatingRef` (line 61),
which is what both trigger gates read (lines 73 and 104), and the state
`isCalculating` (line 64), which is what the hook returns.  The measurement
effect always writes both together with the same value (lines 139-140 and
155-156), but the two triggers do not: the resize reset writes both (lines
77-78) while the dependency-change reset writes only the state (line 109)
and never the ref.  The trigger models below therefore carry both flags.
-/

namespace UseFitText

/-- `TLogLevel` from line 11 of the source. -/
inductive TLogLevel
  | debug
  | info
  | warn
  | error
  | none
deriving DecidableEq

/-- `LOG_LEVEL` record, lines 22-28. -/
def LOG_LEVEL : TLogLevel → ℕ
  | TLogLevel.debug => 10
  | TLogLevel.info => 20
  | TLogLevel.warn => 30
  | TLogLevel.error => 40
  | TLogLevel.none => 100

/-- The configuration of the hook (`TOptions` with defaults applied,
lines 39-47). -/
structure Config where
  logLevel : TLogLevel
  maxFontSize : ℚ
  minFontSize : ℚ
  resolution : ℚ
deriving DecidableEq

/-- The defaults of lines 40-46: `logLevel = "warn"`, `maxFontSize = 100`,
`minFontSize = 20`, `resolution = 5`. -/
def cfgDefault : Config := ⟨TLogLevel.warn, 100, 20, 5⟩

/-- The search state, in the field order of `initState` (lines 50-58). -/
structure FitState where
  calcKey : ℕ
  fontSize : ℚ
  fontSizePrev : ℚ
  fontSizeMax : ℚ
  fontSizeMin : ℚ
deriving DecidableEq

/-- `initState` (lines 50-58). -/
def initState (cfg : Config) : FitState :=
  ⟨0, cfg.maxFontSize, cfg.minFontSize, cfg.maxFontSize, cfg.minFontSize⟩

/-- The reset payload `{ ...initState(), calcKey: <g> }` used by both
triggers (lines 83-86 and 110-113). -/
def resetState (cfg : Config) (g : ℕ) : FitState :=
  { initState cfg with calcKey := g }

/-- A `console` call emitted by the failure branch, modelled structurally:
`level` is the numeric severity of the console method used on the
`LOG_LEVEL` scale, and `minFontSize` is the configured value interpolated
into the message text
(`[use-fit-text] reached minFontSize = ... without fitting text`). -/
structure LogCall where
  level : ℕ
  minFontSize : ℚ
deriving DecidableEq

/-- The observable outcome of one run of the layout effect (lines
119-189): the state that `setState` left behind (the incoming state when
`setState` was not called), the value written to the calculating flags if
any (the effect always writes `isCalculatingRef.current` and
`setCalculating` together with the same value, lines 139-140 and
155-156), the argument of an `onFinish` call if any, and the log emitted
if any. -/
structure StepEffects where
  state : FitState
  calculating : Option Bool
  onFinishCalled : Option ℚ
  infoLog : Option LogCall
deriving DecidableEq

/-- `isOverflow` (lines 128-131): `!!ref.current && (overflow measurement
at the current font size)`. -/
def isOverflowB (attached : Bool) (ov : ℚ → Bool) (s : FitState) : Bool :=
  attached && ov s.fontSize

/-- The bisection update of lines 162-179, parameterised by the overflow
observation `iOv`.  `isAsc` is `fontSize > fontSizePrev` (line 133). -/
def searchStep (iOv : Bool) (s : FitState) : FitState :=
  ⟨s.calcKey,
   s.fontSize +
     (if iOv = true then
        (if s.fontSizePrev < s.fontSize then s.fontSizePrev - s.fontSize
         else s.fontSizeMin - s.fontSize)
      else
        (if s.fontSizePrev < s.fontSize then s.fontSizeMax - s.fontSize
         else s.fontSizePrev - s.fontSize)) / 2,
   s.fontSize,
   if iOv = true then min s.fontSizeMax s.fontSize else s.fontSizeMax,
   if iOv = true then s.fontSizeMin else max s.fontSizeMin s.fontSize⟩

/-- The corrective update of lines 146-153: only `fontSize` changes, to
`isAsc ? fontSizePrev : fontSizeMin`. -/
def correctiveState (s : FitState) : FitState :=
  { s with
    fontSize :=
      if s.fontSizePrev < s.fontSize then s.fontSizePrev else s.fontSizeMin }

/-- The failure branch of lines 138-145: clear the calculating flag and
emit a `console.info` call carrying `minFontSize`, gated by
`logLevel <= LOG_LEVEL.info` (line 141). -/
def failEffects (cfg : Config) (s : FitState) : StepEffects :=
  ⟨s, some false, Option.none,
   if LOG_LEVEL cfg.logLevel ≤ LOG_LEVEL TLogLevel.info then
     some ⟨LOG_LEVEL TLogLevel.info, cfg.minFontSize⟩
   else Option.none⟩

/-- One run of the layout effect of lines 119-189 (a "measurement step").
Line numbers: the `calcKey === 0` early return is line 123, the
within-resolution test is line 127, `isFailed` is line 132, the
within-resolution branch is lines 137-159, the bisection branch is lines
162-179. -/
def measureStep (cfg : Config) (ov : ℚ → Bool) (attached : Bool)
    (s : FitState) : StepEffects :=
  if s.calcKey = 0 then ⟨s, Option.none, Option.none, Option.none⟩
  else if |s.fontSize - s.fontSizePrev| ≤ cfg.resolution then
    if isOverflowB attached ov s = true ∧ s.fontSize = s.fontSizePrev then
      failEffects cfg s
    else if isOverflowB attached ov s = true then
      ⟨correctiveState s, Option.none, Option.none, Option.none⟩
    else ⟨s, some false, some s.fontSize, Option.none⟩
  else
    ⟨searchStep (isOverflowB attached ov s) s, Option.none, Option.none,
     Option.none⟩

/-- Iterate measurement steps, stopping at the first terminal step (one
that sets the calculating flag to `false`); returns `none` when the fuel
runs out before termination.  In the source a non-terminal step re-runs
the effect because `setState` changed a dependency of the layout effect
(lines 180-189). -/
def run (cfg : Config) (ov : ℚ → Bool) (attached : Bool) :
    ℕ → FitState → Option StepEffects
  | 0, _ => Option.none
  | n + 1, s =>
    if (measureStep cfg ov attached s).calculating = some false then
      some (measureStep cfg ov attached s)
    else run cfg ov attached n (measureStep cfg ov attached s).state

/-- `true` iff a run result is a terminal step that cleared the
calculating flag. -/
def terminatedB (o : Option StepEffects) : Bool :=
  match o with
  | some e => e.calculating == some false
  | Option.none => false

/-- The string `` `${fontSize}%` `` returned on line 191. -/
def renderFontSize (s : FitState) : String :=
  toString s.fontSize ++ "%"

/-- Result of the coalesced `ResizeObserver` animation-frame callback
(lines 71-88): the search state afterwards, `isCalculatingRef.current`
afterwards, the exposed `isCalculating` state afterwards, and whether
`onStart` was invoked. -/
structure TriggerOut where
  state : FitState
  calculatingRef : Bool
  calculating : Bool
  onStartCalled : Bool
deriving DecidableEq

/-- The animation-frame callback body of lines 72-87: dropped when
`isCalculatingRef.current` is set (line 73) — the exposed `isCalculating`
state is not consulted — otherwise `onStart`, `isCalculatingRef.current
:= true` (line 77), `setCalculating(true)` (line 78), and the reset of
lines 83-86.  The callback is created once in the `useState` initializer
of line 69 and closes over the mount render's `calcKey`, which is `0`, so
line 85 always writes `calcKey = 0 + 1 = 1`. -/
def resizeFrame (cfg : Config) (calculatingRef : Bool)
    (calculating : Bool) (s : FitState) : TriggerOut :=
  if calculatingRef = true then ⟨s, calculatingRef, calculating, false⟩
  else ⟨resetState cfg 1, true, true, true⟩

/-- Result of the dependency-change effect: the search state afterwards,
`isCalculatingRef.current` afterwards, the exposed `isCalculating` state
afterwards, whether `onStart` was invoked, and the `depsPrevRef` snapshot
after the effect ran. -/
structure DepsEffectOut where
  state : FitState
  calculatingRef : Bool
  calculating : Bool
  onStartCalled : Bool
  depsPrevAfter : Option (List Int)
deriving DecidableEq

/-- The dependency-change effect of lines 103-116.  Dependency lists are
modelled as `List Int` and `dequal` (deep value equality) as equality of
those lists; `depsPrev` is `none` while `depsPrevRef.current` is still
`undefined`, and `dequal(undefined, deps)` is false.  The early return of
lines 104-106 reads `isCalculatingRef.current` and happens before the
snapshot store of line 115.  The reset branch (lines 107-114) calls
`setCalculating(true)` (line 109) but never writes
`isCalculatingRef.current`, so `calculatingRef` is returned unchanged in
every branch; unlike the resize callback, this effect re-runs with fresh
closures (its dependency array includes `calcKey`, line 116), so line 112
increments the live `calcKey`. -/
def depsEffect (cfg : Config) (calculatingRef : Bool)
    (calculating : Bool) (depsPrev : Option (List Int)) (deps : List Int)
    (s : FitState) : DepsEffectOut :=
  if s.calcKey = 0 ∨ calculatingRef = true then
    ⟨s, calculatingRef, calculating, false, depsPrev⟩
  else if depsPrev = some deps then
    ⟨s, calculatingRef, calculating, false, some deps⟩
  else
    ⟨resetState cfg (s.calcKey + 1), calculatingRef, true, true, some deps⟩

/-- States reachable from a reset through measurement steps (any fixed
overflow observation, any attachment). -/
inductive Reaches (cfg : Config) (ov : ℚ → Bool) (attached : Bool) :
    FitState → Prop
  | init (g : ℕ) : Reaches cfg ov attached (resetState cfg g)
  | step (s : FitState) (h : Reaches cfg ov attached s) :
      Reaches cfg ov attached (measureStep cfg ov attached s).state

/-! ### Branch equations for `measureStep` -/

theorem measureStep_noop_eq (cfg : Config) (ov : ℚ → Bool) (a : Bool)
    (s : FitState) (h0 : s.calcKey = 0) :
    measureStep cfg ov a s = ⟨s, Option.none, Option.none, Option.none⟩ := by
  unfold measureStep
  rw [if_pos h0]

theorem measureStep_search_eq (cfg : Config) (ov : ℚ → Bool) (a : Bool)
    (s : FitState) (h0 : s.calcKey ≠ 0)
    (hw : ¬ |s.fontSize - s.fontSizePrev| ≤ cfg.resolution) :
    measureStep cfg ov a s =
      ⟨searchStep (isOverflowB a ov s) s, Option.none, Option.none,
       Option.none⟩ := by
  unfold measureStep
  rw [if_neg h0, if_neg hw]

theorem measureStep_success_eq (cfg : Config) (ov : ℚ → Bool) (a : Bool)
    (s : FitState) (h0 : s.calcKey ≠ 0)
    (hw : |s.fontSize - s.fontSizePrev| ≤ cfg.resolution)
    (hov : isOverflowB a ov s = false) :
    measureStep cfg ov a s = ⟨s, some false, some s.fontSize, Option.none⟩ := by
  unfold measureStep
  rw [if_neg h0, if_pos hw, if_neg (by simp [hov]), if_neg (by simp [hov])]

theorem measureStep_fail_eq (cfg : Config) (ov : ℚ → Bool) (a : Bool)
    (s : FitState) (h0 : s.calcKey ≠ 0)
    (hw : |s.fontSize - s.fontSizePrev| ≤ cfg.resolution)
    (hov : isOverflowB a ov s = true) (he : s.fontSize = s.fontSizePrev) :
    measureStep cfg ov a s = failEffects cfg s := by
  unfold measureStep
  rw [if_neg h0, if_pos hw, if_pos ⟨hov, he⟩]

theorem measureStep_corrective_eq (cfg : Config) (ov : ℚ → Bool) (a : Bool)
    (s : FitState) (h0 : s.calcKey ≠ 0)
    (hw : |s.fontSize - s.fontSizePrev| ≤ cfg.resolution)
    (hov : isOverflowB a ov s = true) (hne : s.fontSize ≠ s.fontSizePrev) :
    measureStep cfg ov a s =
      ⟨correctiveState s, Option.none, Option.none, Option.none⟩ := by
  unfold measureStep
  rw [if_neg h0, if_pos hw, if_neg (fun h => hne h.2), if_pos hov]

/-! ### Equations and basic lemmas for `run` -/

theorem run_succ (cfg : Config) (ov : ℚ → Bool) (a : Bool) (n : ℕ)
    (s : FitState) :
    run cfg ov a (n + 1) s =
      if (measureStep cfg ov a s).calculating = some false then
        some (measureStep cfg ov a s)
      else run cfg ov a n (measureStep cfg ov a s).state := rfl

theorem run_succ_of_next (cfg : Config) (ov : ℚ → Bool) (a : Bool) (n : ℕ)
    (s s' : FitState)
    (h : measureStep cfg ov a s =
      ⟨s', Option.none, Option.none, Option.none⟩) :
    run cfg ov a (n + 1) s = run cfg ov a n s' := by
  rw [run_succ, h]
  simp

theorem run_succ_of_terminal (cfg : Config) (ov : ℚ → Bool) (a : Bool)
    (n : ℕ) (s : FitState) (e : StepEffects) (h : measureStep cfg ov a s = e)
    (hc : e.calculating = some false) :
    run cfg ov a (n + 1) s = some e := by
  rw [run_succ, h, if_pos hc]

theorem run_isSome_mono (cfg : Config) (ov : ℚ → Bool) (a : Bool) :
    ∀ (n m : ℕ) (s : FitState), n ≤ m →
      (run cfg ov a n s).isSome = true → (run cfg ov a m s).isSome = true := by
  intro n
  induction n with
  | zero => intro m s _ h; simp [run] at h
  | succ k ih =>
    intro m s hnm h
    obtain ⟨m', rfl⟩ : ∃ m', m = m' + 1 := ⟨m - 1, by omega⟩
    rw [run_succ] at h ⊢
    by_cases hterm : (measureStep cfg ov a s).calculating = some false
    · rw [if_pos hterm] at h ⊢; exact h
    · rw [if_neg hterm] at h ⊢
      exact ih m' _ (by omega) h

theorem run_terminal (cfg : Config) (ov : ℚ → Bool) (a : Bool) :
    ∀ (n : ℕ) (s : FitState) (e : StepEffects),
      run cfg ov a n s = some e → e.calculating = some false := by
  intro n
  induction n with
  | zero => intro s e h; simp [run] at h
  | succ k ih =>
    intro s e h
    rw [run_succ] at h
    by_cases hterm : (measureStep cfg ov a s).calculating = some false
    · rw [if_pos hterm] at h
      obtain rfl : measureStep cfg ov a s = e := Option.some.inj h
      exact hterm
    · rw [if_neg hterm] at h
      exact ih _ _ h

theorem terminatedB_of_isSome (cfg : Config) (ov : ℚ → Bool) (a : Bool)
    (n : ℕ) (s : FitState) (h : (run cfg ov a n s).isSome = true) :
    terminatedB (run cfg ov a n s) = true := by
  obtain ⟨e, he⟩ := Option.isSome_iff_exists.mp h
  rw [he]
  simp [terminatedB, run_terminal cfg ov a n s e he]

/-! ### Claims -/

/-- Claim C1: in the search branch (`calcKey > 0` and `|fontSize -
fontSizePrev| > resolution`), the next state is exactly the bisection
update of the claim: on overflow `delta = isAsc ? prev - cur : min - cur`
and the bracket max becomes `min(bracketMax, cur)` with the min unchanged;
without overflow `delta = isAsc ? max - cur : prev - cur` and the bracket
min becomes `max(bracketMin, cur)` with the max unchanged; in both cases
the next `fontSize` is `cur + delta/2` and the next `fontSizePrev` is
`cur`.  No callback fires and the calculating flag is untouched. -/
theorem search_branch_formula (cfg : Config) (ov : ℚ → Bool) (s : FitState)
    (h0 : s.calcKey ≠ 0)
    (hw : cfg.resolution < |s.fontSize - s.fontSizePrev|) :
    measureStep cfg ov true s =
      ⟨⟨s.calcKey,
        s.fontSize +
          (if ov s.fontSize = true then
             (if s.fontSizePrev < s.fontSize then s.fontSizePrev - s.fontSize
              else s.fontSizeMin - s.fontSize)
           else
             (if s.fontSizePrev < s.fontSize then s.fontSizeMax - s.fontSize
              else s.fontSizePrev - s.fontSize)) / 2,
        s.fontSize,
        if ov s.fontSize = true then min s.fontSizeMax s.fontSize
        else s.fontSizeMax,
        if ov s.fontSize = true then s.fontSizeMin
        else max s.fontSizeMin s.fontSize⟩,
       Option.none, Option.none, Option.none⟩ := by
  rw [measureStep_search_eq cfg ov true s h0 (not_le.mpr hw)]
  simp [searchStep, isOverflowB]

theorem search_branch_formula_witness :
    measureStep cfgDefault (fun _ => true) true (resetState cfgDefault 1) =
      ⟨⟨1, 60, 100, 100, 20⟩, Option.none, Option.none, Option.none⟩ := by
  rw [search_branch_formula cfgDefault (fun _ => true) (resetState cfgDefault 1)
      (by norm_num [resetState, initState, cfgDefault])
      (by norm_num [resetState, initState, cfgDefault])]
  norm_num [resetState, initState, cfgDefault]

/-- Claim C2 (amended): on a failing step (`calcKey > 0`, within
resolution, overflowing, `fontSize = fontSizePrev`) the calculating flag
is cleared and `onFinish` is not invoked, but the log is an *info*-level
`console.info` call (severity 20), emitted only when the configured
`logLevel` is at most `info` — in particular, with the default
`logLevel = "warn"` no log is emitted at all.  The failing step is
terminal, so the log happens at most once per search. -/
theorem fail_step_effects (cfg : Config) (ov : ℚ → Bool) (s : FitState)
    (h0 : s.calcKey ≠ 0)
    (hw : |s.fontSize - s.fontSizePrev| ≤ cfg.resolution)
    (hov : ov s.fontSize = true) (he : s.fontSize = s.fontSizePrev) :
    measureStep cfg ov true s =
      ⟨s, some false, Option.none,
       if LOG_LEVEL cfg.logLevel ≤ LOG_LEVEL TLogLevel.info then
         some ⟨LOG_LEVEL TLogLevel.info, cfg.minFontSize⟩
       else Option.none⟩ := by
  rw [measureStep_fail_eq cfg ov true s h0 hw (by simp [isOverflowB, hov]) he]
  rfl

theorem fail_step_effects_witness :
    measureStep ⟨TLogLevel.info, 100, 20, 5⟩ (fun _ => true) true
        ⟨1, 20, 20, 20, 20⟩ =
      ⟨⟨1, 20, 20, 20, 20⟩, some false, Option.none, some ⟨20, 20⟩⟩ := by
  rw [fail_step_effects ⟨TLogLevel.info, 100, 20, 5⟩ (fun _ => true)
      ⟨1, 20, 20, 20, 20⟩ (by norm_num) (by norm_num) rfl rfl]
  norm_num [LOG_LEVEL]

/-- Claim C2 counterexample: with the default configuration
(`logLevel = "warn"`), the failing step clears the calculating flag but
emits *no* log at all, contradicting the claimed warning-level log
"emitted exactly once per search". -/
theorem fail_log_default_silent :
    (measureStep cfgDefault (fun _ => true) true
        ⟨1, 20, 20, 20, 20⟩).infoLog = Option.none ∧
    (measureStep cfgDefault (fun _ => true) true
        ⟨1, 20, 20, 20, 20⟩).calculating = some false := by
  norm_num [measureStep, failEffects, isOverflowB, cfgDefault, LOG_LEVEL]

/-- Claim C3 (amended): the dependency snapshot is stored after the
dependency effect exactly when the re-entrancy gate of lines 104-106
passes, i.e. when `calcKey > 0` and `isCalculatingRef.current` is not
set; on the early-return path the snapshot is left unchanged (the
exposed `isCalculating` state plays no role in the gate). -/
theorem deps_snapshot_update_rule (cfg : Config) (r c : Bool)
    (depsPrev : Option (List Int)) (deps : List Int) (s : FitState) :
    (depsEffect cfg r c depsPrev deps s).depsPrevAfter =
      if s.calcKey = 0 ∨ r = true then depsPrev else some deps := by
  unfold depsEffect
  split_ifs <;> rfl

/-- Claim C3 counterexample: an evaluation of the dependency effect with
`calcKey = 0` does *not* store the new dependency list as the snapshot
(the early return of lines 104-106 precedes the store of line 115). -/
theorem deps_snapshot_skipped_gen0 :
    (depsEffect cfgDefault false false Option.none [1]
        (initState cfgDefault)).depsPrevAfter ≠ some [1] := by
  norm_num [depsEffect, initState, cfgDefault]
  exact fun h => Option.noConfusion h

/-- Claim C7 (amended): both trigger gates read `isCalculatingRef.current`
and ignore the exposed `isCalculating` state.  While the ref is set (as a
resize-triggered search sets it, line 77), a resize frame or a
dependency-change evaluation is dropped: `onStart` is not invoked and the
search state, both flags and the snapshot are unchanged; nothing is
queued — the model records no pending event.  But the ref is the only
guard: a resize frame arriving while the ref is clear starts a new search
even if the exposed calculating flag is `true`, and the dependency effect
never writes the ref — so a dependency-triggered search (which sets only
the exposed flag) does not block later triggers. -/
theorem triggers_drop_gated_by_ref (cfg : Config) (r c : Bool)
    (s : FitState) (depsPrev : Option (List Int)) (deps : List Int) :
    resizeFrame cfg true c s = ⟨s, true, c, false⟩ ∧
    depsEffect cfg true c depsPrev deps s = ⟨s, true, c, false, depsPrev⟩ ∧
    resizeFrame cfg false c s = ⟨resetState cfg 1, true, true, true⟩ ∧
    (depsEffect cfg r c depsPrev deps s).calculatingRef = r := by
  refine ⟨?_, ?_, ?_, ?_⟩
  · unfold resizeFrame
    rw [if_pos rfl]
  · unfold depsEffect
    rw [if_pos (Or.inr rfl)]
  · unfold resizeFrame
    rw [if_neg (by simp)]
  · unfold depsEffect
    split_ifs <;> rfl

/-- Claim C7 counterexample: a dependency change on a settled search
state starts a search — `onStart` fires and the exposed calculating flag
becomes `true` — but leaves `isCalculatingRef.current` clear (the
deps-reset of lines 107-114 never writes it).  A resize frame observed
during that search, with the calculating flag `true`, is therefore *not*
dropped: its gate (line 73) reads the clear ref, so `onStart` fires again
and the `SearchState` is reset, preempting the in-progress search. -/
theorem resize_preempts_deps_search :
    (depsEffect cfgDefault false false (some [0]) [1]
        ⟨1, 60, 60, 70, 60⟩).calculating = true ∧
    resizeFrame cfgDefault
        (depsEffect cfgDefault false false (some [0]) [1]
          ⟨1, 60, 60, 70, 60⟩).calculatingRef
        (depsEffect cfgDefault false false (some [0]) [1]
          ⟨1, 60, 60, 70, 60⟩).calculating
        (depsEffect cfgDefault false false (some [0]) [1]
          ⟨1, 60, 60, 70, 60⟩).state =
      ⟨resetState cfgDefault 1, true, true, true⟩ ∧
    (resizeFrame cfgDefault
        (depsEffect cfgDefault false false (some [0]) [1]
          ⟨1, 60, 60, 70, 60⟩).calculatingRef
        (depsEffect cfgDefault false false (some [0]) [1]
          ⟨1, 60, 60, 70, 60⟩).calculating
        (depsEffect cfgDefault false false (some [0]) [1]
          ⟨1, 60, 60, 70, 60⟩).state).state ≠
      (depsEffect cfgDefault false false (some [0]) [1]
        ⟨1, 60, 60, 70, 60⟩).state := by
  refine ⟨?_, ?_, ?_⟩
  · norm_num [depsEffect, resetState, initState, cfgDefault]
  · norm_num [depsEffect, resizeFrame, resetState, initState, cfgDefault]
  · norm_num [depsEffect, resizeFrame, resetState, initState, cfgDefault,
      FitState.mk.injEq]

/-- Claim C9 (amended): the measurement step is total (no exception is
modelled or needed) and a missing container attachment makes the overflow
test `false`, so the step behaves exactly as if the content never
overflowed; the step is a no-op only when no search has started
(`calcKey = 0`). -/
theorem unattached_behaves_as_no_overflow (cfg : Config) (ov : ℚ → Bool)
    (s : FitState) (f p M m : ℚ) :
    measureStep cfg ov false s = measureStep cfg (fun _ => false) true s ∧
    measureStep cfg ov false ⟨0, f, p, M, m⟩ =
      ⟨⟨0, f, p, M, m⟩, Option.none, Option.none, Option.none⟩ := by
  constructor
  · unfold measureStep
    simp [isOverflowB]
  · unfold measureStep
    rw [if_pos rfl]

/-- Claim C9 counterexample: with a search active (`calcKey = 1`) and no
container attached, the measurement step is *not* a no-op: it changes the
search state, and two steps later `onFinish(maxFontSize)` is invoked. -/
theorem unattached_step_changes_state :
    (measureStep cfgDefault (fun _ => true) false
        (resetState cfgDefault 1)).state ≠ resetState cfgDefault 1 ∧
    run cfgDefault (fun _ => true) false 2 (resetState cfgDefault 1) =
      some ⟨⟨1, 100, 100, 100, 100⟩, some false, some 100, Option.none⟩ := by
  constructor
  · norm_num [measureStep, searchStep, isOverflowB, resetState, initState,
      cfgDefault, FitState.mk.injEq]
  · norm_num [run, measureStep, searchStep, isOverflowB, resetState,
      initState, cfgDefault]
    exact fun hc => absurd hc (by simp)

/-- Claim C10: a terminal step (one that clears the calculating flag,
by success or failure) leaves the search state completely unchanged, so
the rendered `fontSize` string stays the one of the last tested
candidate, and on success the value passed to `onFinish` is exactly that
candidate. -/
theorem terminal_step_frame (cfg : Config) (ov : ℚ → Bool) (a : Bool)
    (s : FitState)
    (h : (measureStep cfg ov a s).calculating = some false) :
    (measureStep cfg ov a s).state = s ∧
    renderFontSize (measureStep cfg ov a s).state = renderFontSize s ∧
    ((measureStep cfg ov a s).onFinishCalled = Option.none ∨
      (measureStep cfg ov a s).onFinishCalled = some s.fontSize) := by
  by_cases h0 : s.calcKey = 0
  · rw [measureStep_noop_eq cfg ov a s h0] at h
    exact absurd h (by simp)
  · by_cases hw : |s.fontSize - s.fontSizePrev| ≤ cfg.resolution
    · by_cases hov : isOverflowB a ov s = true
      · by_cases he : s.fontSize = s.fontSizePrev
        · rw [measureStep_fail_eq cfg ov a s h0 hw hov he]
          exact ⟨rfl, rfl, Or.inl rfl⟩
        · rw [measureStep_corrective_eq cfg ov a s h0 hw hov he] at h
          exact absurd h (by simp)
      · have hov' : isOverflowB a ov s = false := by simpa using hov
        rw [measureStep_success_eq cfg ov a s h0 hw hov']
        exact ⟨rfl, rfl, Or.inr rfl⟩
    · rw [measureStep_search_eq cfg ov a s h0 hw] at h
      exact absurd h (by simp)

theorem terminal_step_frame_witness :
    (measureStep cfgDefault (fun _ => false) true
        ⟨1, 100, 100, 100, 100⟩).state = ⟨1, 100, 100, 100, 100⟩ ∧
    renderFontSize (measureStep cfgDefault (fun _ => false) true
        ⟨1, 100, 100, 100, 100⟩).state =
      renderFontSize ⟨1, 100, 100, 100, 100⟩ ∧
    ((measureStep cfgDefault (fun _ => false) true
        ⟨1, 100, 100, 100, 100⟩).onFinishCalled = Option.none ∨
      (measureStep cfgDefault (fun _ => false) true
        ⟨1, 100, 100, 100, 100⟩).onFinishCalled = some 100) :=
  terminal_step_frame cfgDefault (fun _ => false) true ⟨1, 100, 100, 100, 100⟩
    (by norm_num [measureStep, isOverflowB, cfgDefault])


/-- Claim C8: when the step is within resolution, the content overflows,
and `fontSize ≠ fontSizePrev`, exactly one corrective step is taken: the
next `fontSize` is `isAsc ? fontSizePrev : fontSizeMin` while
`fontSizePrev`, `fontSizeMax`, `fontSizeMin` and `calcKey` are unchanged;
the step does not terminate (the calculating flag is untouched and no
callback or log fires), so success or failure can only be decided on a
subsequent step. -/
theorem corrective_step_frame (cfg : Config) (ov : ℚ → Bool) (s : FitState)
    (h0 : s.calcKey ≠ 0)
    (hw : |s.fontSize - s.fontSizePrev| ≤ cfg.resolution)
    (hov : ov s.fontSize = true) (hne : s.fontSize ≠ s.fontSizePrev) :
    measureStep cfg ov true s =
      ⟨⟨s.calcKey,
        if s.fontSizePrev < s.fontSize then s.fontSizePrev else s.fontSizeMin,
        s.fontSizePrev, s.fontSizeMax, s.fontSizeMin⟩,
       Option.none, Option.none, Option.none⟩ := by
  rw [measureStep_corrective_eq cfg ov true s h0 hw
      (by simp [isOverflowB, hov]) hne]
  rfl

theorem corrective_step_frame_witness :
    measureStep cfgDefault (fun _ => true) true ⟨1, 24, 20, 100, 20⟩ =
      ⟨⟨1, 20, 20, 100, 20⟩, Option.none, Option.none, Option.none⟩ := by
  rw [corrective_step_frame cfgDefault (fun _ => true) ⟨1, 24, 20, 100, 20⟩
      (by norm_num) (by norm_num [cfgDefault]) rfl (by norm_num)]
  norm_num

theorem searchStep_bracket (iOv : Bool) (s : FitState)
    (h1 : s.fontSizeMin ≤ s.fontSize) (h2 : s.fontSize ≤ s.fontSizeMax)
    (h3 : s.fontSizeMin ≤ s.fontSizePrev)
    (h4 : s.fontSizePrev ≤ s.fontSizeMax) :
    (searchStep iOv s).fontSizeMin ≤ (searchStep iOv s).fontSize ∧
    (searchStep iOv s).fontSize ≤ (searchStep iOv s).fontSizeMax ∧
    (searchStep iOv s).fontSizeMin ≤ (searchStep iOv s).fontSizePrev ∧
    (searchStep iOv s).fontSizePrev ≤ (searchStep iOv s).fontSizeMax := by
  have hmin : min s.fontSizeMax s.fontSize = s.fontSize := min_eq_right h2
  have hmax : max s.fontSizeMin s.fontSize = s.fontSize := max_eq_right h1
  cases iOv
  · by_cases hasc : s.fontSizePrev < s.fontSize
    · refine ⟨?_, ?_, ?_, ?_⟩ <;>
        simp [searchStep, if_pos hasc, hmax] <;> linarith
    · refine ⟨?_, ?_, ?_, ?_⟩ <;>
        simp [searchStep, if_neg hasc, hmax] <;> linarith
  · by_cases hasc : s.fontSizePrev < s.fontSize
    · refine ⟨?_, ?_, ?_, ?_⟩ <;>
        simp [searchStep, if_pos hasc, hmin] <;> linarith
    · refine ⟨?_, ?_, ?_, ?_⟩ <;>
        simp [searchStep, if_neg hasc, hmin] <;> linarith

theorem measureStep_bracket (cfg : Config) (ov : ℚ → Bool) (a : Bool)
    (s : FitState)
    (h1 : s.fontSizeMin ≤ s.fontSize) (h2 : s.fontSize ≤ s.fontSizeMax)
    (h3 : s.fontSizeMin ≤ s.fontSizePrev)
    (h4 : s.fontSizePrev ≤ s.fontSizeMax) :
    (measureStep cfg ov a s).state.fontSizeMin ≤
        (measureStep cfg ov a s).state.fontSize ∧
    (measureStep cfg ov a s).state.fontSize ≤
        (measureStep cfg ov a s).state.fontSizeMax ∧
    (measureStep cfg ov a s).state.fontSizeMin ≤
        (measureStep cfg ov a s).state.fontSizePrev ∧
    (measureStep cfg ov a s).state.fontSizePrev ≤
        (measureStep cfg ov a s).state.fontSizeMax := by
  by_cases h0 : s.calcKey = 0
  · rw [measureStep_noop_eq cfg ov a s h0]
    exact ⟨h1, h2, h3, h4⟩
  · by_cases hw : |s.fontSize - s.fontSizePrev| ≤ cfg.resolution
    · by_cases hov : isOverflowB a ov s = true
      · by_cases he : s.fontSize = s.fontSizePrev
        · rw [measureStep_fail_eq cfg ov a s h0 hw hov he]
          exact ⟨h1, h2, h3, h4⟩
        · rw [measureStep_corrective_eq cfg ov a s h0 hw hov he]
          unfold correctiveState
          by_cases hasc : s.fontSizePrev < s.fontSize
          · refine ⟨?_, ?_, ?_, ?_⟩ <;> simp only [if_pos hasc] <;> linarith
          · refine ⟨?_, ?_, ?_, ?_⟩ <;> simp only [if_neg hasc] <;> linarith
      · have hov2 : isOverflowB a ov s = false := by simpa using hov
        rw [measureStep_success_eq cfg ov a s h0 hw hov2]
        exact ⟨h1, h2, h3, h4⟩
    · rw [measureStep_search_eq cfg ov a s h0 hw]
      exact searchStep_bracket (isOverflowB a ov s) s h1 h2 h3 h4

/-- Claim C4: for every search started from a valid configuration
(`0 ≤ minFontSize < maxFontSize`), every state reachable from a reset
through measurement steps satisfies
`fontSizeMin ≤ fontSize ≤ fontSizeMax`. -/
theorem bracket_invariant_reachable (cfg : Config) (ov : ℚ → Bool)
    (a : Bool) (_h0 : 0 ≤ cfg.minFontSize)
    (hv : cfg.minFontSize < cfg.maxFontSize) (s : FitState)
    (hr : Reaches cfg ov a s) :
    s.fontSizeMin ≤ s.fontSize ∧ s.fontSize ≤ s.fontSizeMax := by
  suffices h : s.fontSizeMin ≤ s.fontSize ∧ s.fontSize ≤ s.fontSizeMax ∧
      s.fontSizeMin ≤ s.fontSizePrev ∧ s.fontSizePrev ≤ s.fontSizeMax from
    ⟨h.1, h.2.1⟩
  induction hr with
  | init g =>
    refine ⟨le_of_lt hv, le_refl _, le_refl _, le_of_lt hv⟩
  | step s' _ ih =>
    exact measureStep_bracket cfg ov a s' ih.1 ih.2.1 ih.2.2.1 ih.2.2.2

theorem bracket_invariant_reachable_witness :
    (measureStep cfgDefault (fun _ => true) true
        (resetState cfgDefault 1)).state.fontSizeMin ≤
      (measureStep cfgDefault (fun _ => true) true
        (resetState cfgDefault 1)).state.fontSize ∧
    (measureStep cfgDefault (fun _ => true) true
        (resetState cfgDefault 1)).state.fontSize ≤
      (measureStep cfgDefault (fun _ => true) true
        (resetState cfgDefault 1)).state.fontSizeMax :=
  bracket_invariant_reachable cfgDefault (fun _ => true) true
    (by norm_num [cfgDefault]) (by norm_num [cfgDefault]) _
    (Reaches.step _ (Reaches.init 1))


/-- Claim C6: if the content never overflows at any size up to
`maxFontSize`, a freshly reset search converges immediately to
`maxFontSize`: already after the first measurement the candidate is
`maxFontSize`, and the search ends in a success step that invokes
`onFinish(maxFontSize)` exactly once (either the first step is that
terminal success, or the first step calls no callback and the second step
is the terminal success). -/
theorem no_overflow_immediate_max (cfg : Config) (ov : ℚ → Bool) (g : ℕ)
    (hg : g ≠ 0) (hmm : cfg.minFontSize < cfg.maxFontSize)
    (hres : 0 < cfg.resolution)
    (hov : ∀ q, q ≤ cfg.maxFontSize → ov q = false) :
    (measureStep cfg ov true (resetState cfg g)).state.fontSize =
      cfg.maxFontSize ∧
    (measureStep cfg ov true (resetState cfg g) =
        ⟨resetState cfg g, some false, some cfg.maxFontSize, Option.none⟩ ∨
      ((measureStep cfg ov true (resetState cfg g)).onFinishCalled =
          Option.none ∧
        measureStep cfg ov true
            (measureStep cfg ov true (resetState cfg g)).state =
          ⟨(measureStep cfg ov true (resetState cfg g)).state, some false,
           some cfg.maxFontSize, Option.none⟩)) := by
  have hg0 : (resetState cfg g).calcKey ≠ 0 := hg
  have hovM : ov cfg.maxFontSize = false := hov _ le_rfl
  have hovB : isOverflowB true ov (resetState cfg g) = false := by
    simp [isOverflowB, resetState, initState, hovM]
  by_cases hw : |(resetState cfg g).fontSize -
      (resetState cfg g).fontSizePrev| ≤ cfg.resolution
  · rw [measureStep_success_eq cfg ov true (resetState cfg g) hg0 hw hovB]
    exact ⟨rfl, Or.inl rfl⟩
  · rw [measureStep_search_eq cfg ov true (resetState cfg g) hg0 hw, hovB]
    have hs1 : searchStep false (resetState cfg g) =
        ⟨g, cfg.maxFontSize, cfg.maxFontSize, cfg.maxFontSize,
         cfg.maxFontSize⟩ := by
      simp only [searchStep, resetState, initState]
      refine FitState.mk.injEq _ _ _ _ _ _ _ _ _ _ |>.mpr ?_
      rw [if_neg Bool.false_ne_true, if_pos hmm, if_neg Bool.false_ne_true,
        if_neg Bool.false_ne_true]
      exact ⟨rfl, by ring, rfl, rfl, max_eq_right (le_of_lt hmm)⟩
    rw [hs1]
    have hg1 : (⟨g, cfg.maxFontSize, cfg.maxFontSize, cfg.maxFontSize,
        cfg.maxFontSize⟩ : FitState).calcKey ≠ 0 := hg
    have hw1 : |(⟨g, cfg.maxFontSize, cfg.maxFontSize, cfg.maxFontSize,
        cfg.maxFontSize⟩ : FitState).fontSize -
        (⟨g, cfg.maxFontSize, cfg.maxFontSize, cfg.maxFontSize,
        cfg.maxFontSize⟩ : FitState).fontSizePrev| ≤ cfg.resolution := by
      simp
      linarith
    have hovB1 : isOverflowB true ov (⟨g, cfg.maxFontSize, cfg.maxFontSize,
        cfg.maxFontSize, cfg.maxFontSize⟩ : FitState) = false := by
      simp [isOverflowB, hovM]
    rw [measureStep_success_eq cfg ov true _ hg1 hw1 hovB1]
    exact ⟨rfl, Or.inr ⟨rfl, rfl⟩⟩

theorem no_overflow_immediate_max_witness :
    (measureStep cfgDefault (fun _ => false) true
        (resetState cfgDefault 1)).state.fontSize =
      cfgDefault.maxFontSize ∧
    (measureStep cfgDefault (fun _ => false) true (resetState cfgDefault 1) =
        ⟨resetState cfgDefault 1, some false, some cfgDefault.maxFontSize,
         Option.none⟩ ∨
      ((measureStep cfgDefault (fun _ => false) true
          (resetState cfgDefault 1)).onFinishCalled = Option.none ∧
        measureStep cfgDefault (fun _ => false) true
            (measureStep cfgDefault (fun _ => false) true
              (resetState cfgDefault 1)).state =
          ⟨(measureStep cfgDefault (fun _ => false) true
              (resetState cfgDefault 1)).state, some false,
           some cfgDefault.maxFontSize, Option.none⟩)) :=
  no_overflow_immediate_max cfgDefault (fun _ => false) 1 (by norm_num)
    (by norm_num [cfgDefault]) (by norm_num [cfgDefault])
    (fun _ _ => rfl)


/-! ### Closed forms of the bisection step under the bracket invariant -/

theorem searchStep_true_closed (s : FitState)
    (_hm : s.fontSizeMin ≤ s.fontSize) (hM : s.fontSize ≤ s.fontSizeMax)
    (hprev : s.fontSizePrev = s.fontSizeMin ∨
      s.fontSizePrev = s.fontSizeMax) :
    searchStep true s =
      ⟨s.calcKey, (s.fontSize + s.fontSizeMin) / 2, s.fontSize, s.fontSize,
       s.fontSizeMin⟩ := by
  have h1 : min s.fontSizeMax s.fontSize = s.fontSize := min_eq_right hM
  unfold searchStep
  rw [if_pos rfl, if_pos rfl, if_pos rfl, h1]
  by_cases hasc : s.fontSizePrev < s.fontSize
  · rcases hprev with hp | hp
    · rw [if_pos hasc, hp,
        show s.fontSize + (s.fontSizeMin - s.fontSize) / 2 =
          (s.fontSize + s.fontSizeMin) / 2 by ring]
    · exact absurd (hp ▸ hasc) (not_lt.mpr hM)
  · rw [if_neg hasc,
      show s.fontSize + (s.fontSizeMin - s.fontSize) / 2 =
        (s.fontSize + s.fontSizeMin) / 2 by ring]

theorem searchStep_false_closed (s : FitState)
    (hm : s.fontSizeMin ≤ s.fontSize) (_hM : s.fontSize ≤ s.fontSizeMax)
    (hprev : s.fontSizePrev = s.fontSizeMin ∨
      s.fontSizePrev = s.fontSizeMax)
    (hne : s.fontSize ≠ s.fontSizePrev) :
    searchStep false s =
      ⟨s.calcKey, (s.fontSize + s.fontSizeMax) / 2, s.fontSize,
       s.fontSizeMax, s.fontSize⟩ := by
  have h1 : max s.fontSizeMin s.fontSize = s.fontSize := max_eq_right hm
  unfold searchStep
  rw [if_neg Bool.false_ne_true, if_neg Bool.false_ne_true,
    if_neg Bool.false_ne_true, h1]
  by_cases hasc : s.fontSizePrev < s.fontSize
  · rw [if_pos hasc,
      show s.fontSize + (s.fontSizeMax - s.fontSize) / 2 =
        (s.fontSize + s.fontSizeMax) / 2 by ring]
  · rcases hprev with hp | hp
    · have hpf : s.fontSizePrev ≤ s.fontSize := by rw [hp]; exact hm
      exact absurd (le_antisymm (not_lt.mp hasc) hpf) hne
    · rw [if_neg hasc, hp,
        show s.fontSize + (s.fontSizeMax - s.fontSize) / 2 =
          (s.fontSize + s.fontSizeMax) / 2 by ring]


/-- After a reset the search enters, and every bisection step preserves,
the exact bracket geometry: the previous candidate sits on a bracket
endpoint and the candidate gap is half the bracket width.  Under that
geometry, once the gap is within the resolution the search reaches a
terminal step (success or failure) in at most 4 further effect runs. -/
theorem withinRes_terminates (cfg : Config) (ov : ℚ → Bool) (k : ℕ)
    (f p M m : ℚ) (hres : 0 < cfg.resolution) (h0 : k ≠ 0)
    (hm : m ≤ f) (hM : f ≤ M) (hprev : p = m ∨ p = M)
    (hgap : |f - p| = (M - m) / 2)
    (hlo : cfg.resolution < M - m) (hhi : M - m ≤ 2 * cfg.resolution) :
    (run cfg ov true 4 ⟨k, f, p, M, m⟩).isSome = true := by
  have hW : 0 < M - m := lt_trans hres hlo
  have hne : f ≠ p := by
    intro h
    rw [h, sub_self, abs_zero] at hgap
    linarith
  have hw : |f - p| ≤ cfg.resolution := by rw [hgap]; linarith
  by_cases hovf : ov f = true
  · rcases hprev with hp | hp
    · -- ascending: previous candidate is the bracket minimum
      subst hp
      have hasc : p < f := lt_of_le_of_ne hm (Ne.symm hne)
      have hstep1 : measureStep cfg ov true ⟨k, f, p, M, p⟩ =
          ⟨⟨k, p, p, M, p⟩, Option.none, Option.none, Option.none⟩ := by
        rw [measureStep_corrective_eq cfg ov true ⟨k, f, p, M, p⟩ h0 hw
          (by simp [isOverflowB, hovf]) hne]
        unfold correctiveState
        simp [if_pos hasc]
      rw [run_succ_of_next cfg ov true 3 ⟨k, f, p, M, p⟩ ⟨k, p, p, M, p⟩
        hstep1]
      have hw1 : |(p : ℚ) - p| ≤ cfg.resolution := by
        rw [sub_self, abs_zero]; exact le_of_lt hres
      by_cases hovp : ov p = true
      · rw [run_succ_of_terminal cfg ov true 2 ⟨k, p, p, M, p⟩
          (failEffects cfg ⟨k, p, p, M, p⟩)
          (measureStep_fail_eq cfg ov true ⟨k, p, p, M, p⟩ h0 hw1
            (by simp [isOverflowB, hovp]) rfl) rfl]
        rfl
      · rw [run_succ_of_terminal cfg ov true 2 ⟨k, p, p, M, p⟩
          ⟨⟨k, p, p, M, p⟩, some false, some p, Option.none⟩
          (measureStep_success_eq cfg ov true ⟨k, p, p, M, p⟩ h0 hw1
            (by simp [isOverflowB]; simpa using hovp)) rfl]
        rfl
    · -- descending: previous candidate is the bracket maximum
      subst hp
      have hdesc : f < p := lt_of_le_of_ne hM hne
      have hfmid : f = (m + p) / 2 := by
        rw [abs_of_nonpos (by linarith)] at hgap
        linarith
      have hstep1 : measureStep cfg ov true ⟨k, f, p, p, m⟩ =
          ⟨⟨k, m, p, p, m⟩, Option.none, Option.none, Option.none⟩ := by
        rw [measureStep_corrective_eq cfg ov true ⟨k, f, p, p, m⟩ h0 hw
          (by simp [isOverflowB, hovf]) hne]
        unfold correctiveState
        simp [if_neg (not_lt.mpr (le_of_lt hdesc))]
      rw [run_succ_of_next cfg ov true 3 ⟨k, f, p, p, m⟩ ⟨k, m, p, p, m⟩
        hstep1]
      have hw1 : ¬ |(m : ℚ) - p| ≤ cfg.resolution := by
        rw [abs_of_nonpos (by linarith)]
        intro hcon
        linarith
      by_cases hovm : ov m = true
      · have hstep2 : measureStep cfg ov true ⟨k, m, p, p, m⟩ =
            ⟨⟨k, m, m, m, m⟩, Option.none, Option.none, Option.none⟩ := by
          rw [measureStep_search_eq cfg ov true ⟨k, m, p, p, m⟩ h0 hw1,
            show isOverflowB true ov ⟨k, m, p, p, m⟩ = true by
              simp [isOverflowB, hovm],
            searchStep_true_closed ⟨k, m, p, p, m⟩ le_rfl (by linarith)
              (Or.inr rfl),
            show ((m : ℚ) + m) / 2 = m by ring]
        rw [run_succ_of_next cfg ov true 2 ⟨k, m, p, p, m⟩ ⟨k, m, m, m, m⟩
          hstep2]
        have hw2 : |(m : ℚ) - m| ≤ cfg.resolution := by
          rw [sub_self, abs_zero]; exact le_of_lt hres
        rw [run_succ_of_terminal cfg ov true 1 ⟨k, m, m, m, m⟩
          (failEffects cfg ⟨k, m, m, m, m⟩)
          (measureStep_fail_eq cfg ov true ⟨k, m, m, m, m⟩ h0 hw2
            (by simp [isOverflowB, hovm]) rfl) rfl]
        rfl
      · have hstep2 : measureStep cfg ov true ⟨k, m, p, p, m⟩ =
            ⟨⟨k, (m + p) / 2, m, p, m⟩, Option.none, Option.none,
             Option.none⟩ := by
          rw [measureStep_search_eq cfg ov true ⟨k, m, p, p, m⟩ h0 hw1,
            show isOverflowB true ov ⟨k, m, p, p, m⟩ = false by
              simp [isOverflowB]; simpa using hovm,
            searchStep_false_closed ⟨k, m, p, p, m⟩ le_rfl (by linarith)
              (Or.inr rfl) (by intro hcon; dsimp at hcon; linarith)]
        rw [run_succ_of_next cfg ov true 2 ⟨k, m, p, p, m⟩
          ⟨k, (m + p) / 2, m, p, m⟩ hstep2]
        have hov2 : ov ((m + p) / 2) = true := hfmid ▸ hovf
        have hstep3 : measureStep cfg ov true ⟨k, (m + p) / 2, m, p, m⟩ =
            ⟨⟨k, m, m, p, m⟩, Option.none, Option.none, Option.none⟩ := by
          rw [measureStep_corrective_eq cfg ov true ⟨k, (m + p) / 2, m, p, m⟩
            h0
            (show |((m : ℚ) + p) / 2 - m| ≤ cfg.resolution by
              rw [abs_of_nonneg (by linarith)]; linarith)
            (by simp [isOverflowB, hov2])
            (by intro hcon; dsimp at hcon; linarith)]
          unfold correctiveState
          simp [if_pos (show (m : ℚ) < (m + p) / 2 by linarith)]
        rw [run_succ_of_next cfg ov true 1 ⟨k, (m + p) / 2, m, p, m⟩
          ⟨k, m, m, p, m⟩ hstep3]
        have hw3 : |(m : ℚ) - m| ≤ cfg.resolution := by
          rw [sub_self, abs_zero]; exact le_of_lt hres
        rw [run_succ_of_terminal cfg ov true 0 ⟨k, m, m, p, m⟩
          ⟨⟨k, m, m, p, m⟩, some false, some m, Option.none⟩
          (measureStep_success_eq cfg ov true ⟨k, m, m, p, m⟩ h0 hw3
            (by simp [isOverflowB]; simpa using hovm)) rfl]
        rfl
  · rw [run_succ_of_terminal cfg ov true 3 ⟨k, f, p, M, m⟩
      ⟨⟨k, f, p, M, m⟩, some false, some f, Option.none⟩
      (measureStep_success_eq cfg ov true ⟨k, f, p, M, m⟩ h0 hw
        (by simp [isOverflowB]; simpa using hovf)) rfl]
    rfl


/-- Halving induction: from any state with the post-reset bracket
geometry and a bracket wider than the resolution but at most
`resolution * 2 ^ j`, the search terminates within `j + 4` further
measurement steps. -/
theorem runB (cfg : Config) (ov : ℚ → Bool) (hres : 0 < cfg.resolution) :
    ∀ (j : ℕ) (k : ℕ) (f p M m : ℚ), k ≠ 0 → m ≤ f → f ≤ M →
      (p = m ∨ p = M) → |f - p| = (M - m) / 2 →
      cfg.resolution < M - m → M - m ≤ cfg.resolution * 2 ^ j →
      (run cfg ov true (j + 4) ⟨k, f, p, M, m⟩).isSome = true := by
  intro j
  induction j with
  | zero =>
    intro k f p M m _ _ _ _ _ hlo hhi
    exfalso
    rw [pow_zero, mul_one] at hhi
    linarith
  | succ j ih =>
    intro k f p M m h0 hm hM hprev hgap hlo hhi
    by_cases hsmall : M - m ≤ 2 * cfg.resolution
    · exact run_isSome_mono cfg ov true 4 (j + 1 + 4) ⟨k, f, p, M, m⟩
        (by omega)
        (withinRes_terminates cfg ov k f p M m hres h0 hm hM hprev hgap hlo
          hsmall)
    · push_neg at hsmall
      have hne : f ≠ p := by
        intro h
        rw [h, sub_self, abs_zero] at hgap
        linarith
      have hw : ¬ |f - p| ≤ cfg.resolution := by
        rw [hgap]
        intro hcon
        linarith
      have hWf : f - m = (M - m) / 2 := by
        rcases hprev with hp | hp
        · rw [hp, abs_of_nonneg (by linarith)] at hgap
          linarith
        · rw [hp, abs_of_nonpos (by linarith)] at hgap
          linarith
      have hpow : cfg.resolution * 2 ^ (j + 1) =
          2 * (cfg.resolution * 2 ^ j) := by ring
      rw [hpow] at hhi
      by_cases hovf : ov f = true
      · have hstep : measureStep cfg ov true ⟨k, f, p, M, m⟩ =
            ⟨⟨k, (f + m) / 2, f, f, m⟩, Option.none, Option.none,
             Option.none⟩ := by
          rw [measureStep_search_eq cfg ov true ⟨k, f, p, M, m⟩ h0 hw,
            show isOverflowB true ov ⟨k, f, p, M, m⟩ = true by
              simp [isOverflowB, hovf],
            searchStep_true_closed ⟨k, f, p, M, m⟩ hm hM hprev]
        rw [show j + 1 + 4 = (j + 4) + 1 from rfl,
          run_succ_of_next cfg ov true (j + 4) ⟨k, f, p, M, m⟩
            ⟨k, (f + m) / 2, f, f, m⟩ hstep]
        exact ih k ((f + m) / 2) f f m h0 (by linarith) (by linarith)
          (Or.inr rfl)
          (by rw [abs_of_nonpos (by linarith)]; ring)
          (by linarith) (by linarith)
      · have hovB : isOverflowB true ov ⟨k, f, p, M, m⟩ = false := by
          simp [isOverflowB]
          simpa using hovf
        have hstep : measureStep cfg ov true ⟨k, f, p, M, m⟩ =
            ⟨⟨k, (f + M) / 2, f, M, f⟩, Option.none, Option.none,
             Option.none⟩ := by
          rw [measureStep_search_eq cfg ov true ⟨k, f, p, M, m⟩ h0 hw, hovB,
            searchStep_false_closed ⟨k, f, p, M, m⟩ hm hM hprev hne]
        rw [show j + 1 + 4 = (j + 4) + 1 from rfl,
          run_succ_of_next cfg ov true (j + 4) ⟨k, f, p, M, m⟩
            ⟨k, (f + M) / 2, f, M, f⟩ hstep]
        exact ih k ((f + M) / 2) f M f h0 (by linarith) (by linarith)
          (Or.inl rfl)
          (by rw [abs_of_nonneg (by linarith)]; ring)
          (by linarith) (by linarith)

/-- Claim C5: for every valid configuration
(`minFontSize < maxFontSize`, `resolution > 0`), every fixed overflow
observation and every `k` with
`maxFontSize - minFontSize ≤ resolution * 2 ^ k` (that is, any
`k ≥ ⌈log2((maxFontSize - minFontSize) / resolution)⌉`), a search started
from a reset reaches a terminal step — the calculating flag returns to
`false` through success or failure — within `k + 5` measurement steps. -/
theorem search_terminates_log_bound (cfg : Config) (ov : ℚ → Bool)
    (g k : ℕ) (hg : g ≠ 0) (hmin : cfg.minFontSize < cfg.maxFontSize)
    (hres : 0 < cfg.resolution)
    (hk : cfg.maxFontSize - cfg.minFontSize ≤ cfg.resolution * 2 ^ k) :
    terminatedB (run cfg ov true (k + 5) (resetState cfg g)) = true := by
  apply terminatedB_of_isSome
  have hreset : resetState cfg g =
      ⟨g, cfg.maxFontSize, cfg.minFontSize, cfg.maxFontSize,
       cfg.minFontSize⟩ := rfl
  rw [hreset]
  by_cases hw : |cfg.maxFontSize - cfg.minFontSize| ≤ cfg.resolution
  · by_cases hovM : ov cfg.maxFontSize = true
    · apply run_isSome_mono cfg ov true 2 (k + 5)
        ⟨g, cfg.maxFontSize, cfg.minFontSize, cfg.maxFontSize,
         cfg.minFontSize⟩ (by omega)
      have hstep1 : measureStep cfg ov true
          ⟨g, cfg.maxFontSize, cfg.minFontSize, cfg.maxFontSize,
           cfg.minFontSize⟩ =
          ⟨⟨g, cfg.minFontSize, cfg.minFontSize, cfg.maxFontSize,
            cfg.minFontSize⟩, Option.none, Option.none, Option.none⟩ := by
        rw [measureStep_corrective_eq cfg ov true
          ⟨g, cfg.maxFontSize, cfg.minFontSize, cfg.maxFontSize,
           cfg.minFontSize⟩ hg hw (by simp [isOverflowB, hovM])
          (ne_of_gt hmin)]
        unfold correctiveState
        simp [if_pos hmin]
      rw [run_succ_of_next cfg ov true 1
        ⟨g, cfg.maxFontSize, cfg.minFontSize, cfg.maxFontSize,
         cfg.minFontSize⟩
        ⟨g, cfg.minFontSize, cfg.minFontSize, cfg.maxFontSize,
         cfg.minFontSize⟩ hstep1]
      have hw1 : |cfg.minFontSize - cfg.minFontSize| ≤ cfg.resolution := by
        rw [sub_self, abs_zero]
        exact le_of_lt hres
      by_cases hovm : ov cfg.minFontSize = true
      · rw [run_succ_of_terminal cfg ov true 0
          ⟨g, cfg.minFontSize, cfg.minFontSize, cfg.maxFontSize,
           cfg.minFontSize⟩
          (failEffects cfg
            ⟨g, cfg.minFontSize, cfg.minFontSize, cfg.maxFontSize,
             cfg.minFontSize⟩)
          (measureStep_fail_eq cfg ov true
            ⟨g, cfg.minFontSize, cfg.minFontSize, cfg.maxFontSize,
             cfg.minFontSize⟩ hg hw1 (by simp [isOverflowB, hovm]) rfl) rfl]
        rfl
      · rw [run_succ_of_terminal cfg ov true 0
          ⟨g, cfg.minFontSize, cfg.minFontSize, cfg.maxFontSize,
           cfg.minFontSize⟩
          ⟨⟨g, cfg.minFontSize, cfg.minFontSize, cfg.maxFontSize,
            cfg.minFontSize⟩, some false, some cfg.minFontSize, Option.none⟩
          (measureStep_success_eq cfg ov true
            ⟨g, cfg.minFontSize, cfg.minFontSize, cfg.maxFontSize,
             cfg.minFontSize⟩ hg hw1
            (by simp [isOverflowB]; simpa using hovm)) rfl]
        rfl
    · apply run_isSome_mono cfg ov true 1 (k + 5)
        ⟨g, cfg.maxFontSize, cfg.minFontSize, cfg.maxFontSize,
         cfg.minFontSize⟩ (by omega)
      rw [run_succ_of_terminal cfg ov true 0
        ⟨g, cfg.maxFontSize, cfg.minFontSize, cfg.maxFontSize,
         cfg.minFontSize⟩
        ⟨⟨g, cfg.maxFontSize, cfg.minFontSize, cfg.maxFontSize,
          cfg.minFontSize⟩, some false, some cfg.maxFontSize, Option.none⟩
        (measureStep_success_eq cfg ov true
          ⟨g, cfg.maxFontSize, cfg.minFontSize, cfg.maxFontSize,
           cfg.minFontSize⟩ hg hw
          (by simp [isOverflowB]; simpa using hovM)) rfl]
      rfl
  · have habs : cfg.resolution < cfg.maxFontSize - cfg.minFontSize := by
      have hnl := not_le.mp hw
      rwa [abs_of_nonneg (by linarith)] at hnl
    by_cases hovM : ov cfg.maxFontSize = true
    · have hstep1 : measureStep cfg ov true
          ⟨g, cfg.maxFontSize, cfg.minFontSize, cfg.maxFontSize,
           cfg.minFontSize⟩ =
          ⟨⟨g, (cfg.maxFontSize + cfg.minFontSize) / 2, cfg.maxFontSize,
            cfg.maxFontSize, cfg.minFontSize⟩, Option.none, Option.none,
           Option.none⟩ := by
        rw [measureStep_search_eq cfg ov true
          ⟨g, cfg.maxFontSize, cfg.minFontSize, cfg.maxFontSize,
           cfg.minFontSize⟩ hg hw,
          show isOverflowB true ov
            ⟨g, cfg.maxFontSize, cfg.minFontSize, cfg.maxFontSize,
             cfg.minFontSize⟩ = true by simp [isOverflowB, hovM],
          searchStep_true_closed
            ⟨g, cfg.maxFontSize, cfg.minFontSize, cfg.maxFontSize,
             cfg.minFontSize⟩ (le_of_lt hmin) le_rfl (Or.inl rfl)]
      rw [show k + 5 = (k + 4) + 1 from rfl,
        run_succ_of_next cfg ov true (k + 4)
          ⟨g, cfg.maxFontSize, cfg.minFontSize, cfg.maxFontSize,
           cfg.minFontSize⟩
          ⟨g, (cfg.maxFontSize + cfg.minFontSize) / 2, cfg.maxFontSize,
           cfg.maxFontSize, cfg.minFontSize⟩ hstep1]
      exact runB cfg ov hres k g
        ((cfg.maxFontSize + cfg.minFontSize) / 2) cfg.maxFontSize
        cfg.maxFontSize cfg.minFontSize hg (by linarith) (by linarith)
        (Or.inr rfl) (by rw [abs_of_nonpos (by linarith)]; ring) habs hk
    · apply run_isSome_mono cfg ov true 2 (k + 5)
        ⟨g, cfg.maxFontSize, cfg.minFontSize, cfg.maxFontSize,
         cfg.minFontSize⟩ (by omega)
      have hovB : isOverflowB true ov
          ⟨g, cfg.maxFontSize, cfg.minFontSize, cfg.maxFontSize,
           cfg.minFontSize⟩ = false := by
        simp [isOverflowB]
        simpa using hovM
      have hstep1 : measureStep cfg ov true
          ⟨g, cfg.maxFontSize, cfg.minFontSize, cfg.maxFontSize,
           cfg.minFontSize⟩ =
          ⟨⟨g, cfg.maxFontSize, cfg.maxFontSize, cfg.maxFontSize,
            cfg.maxFontSize⟩, Option.none, Option.none, Option.none⟩ := by
        rw [measureStep_search_eq cfg ov true
          ⟨g, cfg.maxFontSize, cfg.minFontSize, cfg.maxFontSize,
           cfg.minFontSize⟩ hg hw, hovB,
          searchStep_false_closed
            ⟨g, cfg.maxFontSize, cfg.minFontSize, cfg.maxFontSize,
             cfg.minFontSize⟩ (le_of_lt hmin) le_rfl (Or.inl rfl)
            (ne_of_gt hmin),
          show (cfg.maxFontSize + cfg.maxFontSize) / 2 = cfg.maxFontSize by
            ring]
      rw [run_succ_of_next cfg ov true 1
        ⟨g, cfg.maxFontSize, cfg.minFontSize, cfg.maxFontSize,
         cfg.minFontSize⟩
        ⟨g, cfg.maxFontSize, cfg.maxFontSize, cfg.maxFontSize,
         cfg.maxFontSize⟩ hstep1]
      rw [run_succ_of_terminal cfg ov true 0
        ⟨g, cfg.maxFontSize, cfg.maxFontSize, cfg.maxFontSize,
         cfg.maxFontSize⟩
        ⟨⟨g, cfg.maxFontSize, cfg.maxFontSize, cfg.maxFontSize,
          cfg.maxFontSize⟩, some false, some cfg.maxFontSize, Option.none⟩
        (measureStep_success_eq cfg ov true
          ⟨g, cfg.maxFontSize, cfg.maxFontSize, cfg.maxFontSize,
           cfg.maxFontSize⟩ hg
          (by rw [sub_self, abs_zero]; exact le_of_lt hres)
          (by simp [isOverflowB]; simpa using hovM)) rfl]
      rfl

theorem search_terminates_log_bound_witness :
    terminatedB (run cfgDefault (fun q => decide ((62 : ℚ) < q)) true 9
      (resetState cfgDefault 1)) = true :=
  search_terminates_log_bound cfgDefault (fun q => decide ((62 : ℚ) < q))
    1 4 (by norm_num) (by norm_num [cfgDefault]) (by norm_num [cfgDefault])
    (by norm_num [cfgDefault])

end UseFitText
